import Mathlib

/-!
The rteval parser daemon: status codes, job record, null-safe allocation,
array iterator.

A shallow embedding of the parts of `server/parser` that the properties below
talk about:

* `statuses.h`          - the `STAT_*` submission status codes
* `parsethread.h`       - `jobStatus` and the fixed buffers of `parseJob_t`
* `threadinfo.h`        - `threadData_t.max_report_size`
* `eurephia_nullsafe.c` - `malloc_nullsafe`
* `xmlparser.h`         - `array_str_t` and the `for_array_str` iterator

Machine integers are natural numbers; where a C `unsigned int` is incremented
the wrap-around modulo `2 ^ 32` is written out.
-/

namespace Rteval

/-! ## statuses.h -/

/-- New, unparsed report in the submission queue -/
def STAT_NEW : Nat := 0
/-- Submission is assigned to a parser -/
def STAT_ASSIGNED : Nat := 1
/-- Parsing has started -/
def STAT_INPROG : Nat := 2
/-- Report parsed successfully -/
def STAT_SUCCESS : Nat := 3
/-- Unkown failure -/
def STAT_UNKNFAIL : Nat := 4
/-- Failed to parse the report XML file -/
def STAT_XMLFAIL : Nat := 5
/-- System registration failed -/
def STAT_SYSREG : Nat := 6
/-- Failed to get a new rterid value for the rteval run -/
def STAT_RTERIDREG : Nat := 7
/-- General database error -/
def STAT_GENDB : Nat := 8
/-- Registering rteval run information failed -/
def STAT_RTEVRUNS : Nat := 9
/-- Registering measurement results failed -/
def STAT_MEASURE : Nat := 10
/-- Failed to move the report file -/
def STAT_REPMOVE : Nat := 11
/-- Report is too big (see config parameter: max_report_size) -/
def STAT_FTOOBIG : Nat := 12

/-- The object-like macros of `statuses.h`, in file order: the name of every
`#define STAT_*` line with the value it expands to. -/
def statuses_h : List (String × Nat) :=
  [ ("STAT_NEW", STAT_NEW),
    ("STAT_ASSIGNED", STAT_ASSIGNED),
    ("STAT_INPROG", STAT_INPROG),
    ("STAT_SUCCESS", STAT_SUCCESS),
    ("STAT_UNKNFAIL", STAT_UNKNFAIL),
    ("STAT_XMLFAIL", STAT_XMLFAIL),
    ("STAT_SYSREG", STAT_SYSREG),
    ("STAT_RTERIDREG", STAT_RTERIDREG),
    ("STAT_GENDB", STAT_GENDB),
    ("STAT_RTEVRUNS", STAT_RTEVRUNS),
    ("STAT_MEASURE", STAT_MEASURE),
    ("STAT_REPMOVE", STAT_REPMOVE),
    ("STAT_FTOOBIG", STAT_FTOOBIG) ]

/-- The submission statuses under the names the specification gives them. -/
inductive SubmissionStatus where
  | NEW | ASSIGNED | INPROG | SUCCESS | UNKNOWN_FAIL | XML_FAIL | SYSREG_FAIL
  | RTERID_FAIL | DB_FAIL | RTEVALRUN_FAIL | MEASURE_FAIL | REPMOVE_FAIL
  | FILE_TOO_BIG
  deriving DecidableEq

namespace SubmissionStatus

/-- The thirteen statuses in the order the specification lists them. -/
def all : List SubmissionStatus :=
  [NEW, ASSIGNED, INPROG, SUCCESS, UNKNOWN_FAIL, XML_FAIL, SYSREG_FAIL,
   RTERID_FAIL, DB_FAIL, RTEVALRUN_FAIL, MEASURE_FAIL, REPMOVE_FAIL,
   FILE_TOO_BIG]

/-- The `STAT_*` macro of `statuses.h` that stands for a status (matched by
the comment each `#define` carries). -/
def statName : SubmissionStatus → String
  | NEW => "STAT_NEW"
  | ASSIGNED => "STAT_ASSIGNED"
  | INPROG => "STAT_INPROG"
  | SUCCESS => "STAT_SUCCESS"
  | UNKNOWN_FAIL => "STAT_UNKNFAIL"
  | XML_FAIL => "STAT_XMLFAIL"
  | SYSREG_FAIL => "STAT_SYSREG"
  | RTERID_FAIL => "STAT_RTERIDREG"
  | DB_FAIL => "STAT_GENDB"
  | RTEVALRUN_FAIL => "STAT_RTEVRUNS"
  | MEASURE_FAIL => "STAT_MEASURE"
  | REPMOVE_FAIL => "STAT_REPMOVE"
  | FILE_TOO_BIG => "STAT_FTOOBIG"

/-- The integer stored in the queue row for a status: the value of its macro. -/
def code : SubmissionStatus → Nat
  | NEW => STAT_NEW
  | ASSIGNED => STAT_ASSIGNED
  | INPROG => STAT_INPROG
  | SUCCESS => STAT_SUCCESS
  | UNKNOWN_FAIL => STAT_UNKNFAIL
  | XML_FAIL => STAT_XMLFAIL
  | SYSREG_FAIL => STAT_SYSREG
  | RTERID_FAIL => STAT_RTERIDREG
  | DB_FAIL => STAT_GENDB
  | RTEVALRUN_FAIL => STAT_RTEVRUNS
  | MEASURE_FAIL => STAT_MEASURE
  | REPMOVE_FAIL => STAT_REPMOVE
  | FILE_TOO_BIG => STAT_FTOOBIG

/-- Terminal status: any status that is not `NEW`, `ASSIGNED` or `INPROG`. -/
def isTerminal (s : SubmissionStatus) : Bool :=
  s != NEW && s != ASSIGNED && s != INPROG

end SubmissionStatus

/-- The values a macro name is defined to in `statuses.h` (one entry per
`#define` of that name). -/
def definitionsOf (name : String) : List Nat :=
  (statuses_h.filter (fun d => d.1 == name)).map (fun d => d.2)

/-! ## threadinfo.h and the per-job state machine -/

/-- The field of `threadData_t` the size check reads: "Maximum accepted file
size of reports (config: max_report_size)", an `unsigned int`. -/
structure threadData_t where
  max_report_size : Nat
  deriving DecidableEq

/-- Modelled from the spec: the states of the per-job state machine of the
ingest pipeline (section 4.6). The worker function `parsethread` is declared
in `parsethread.h`, its body is not among the sources. -/
inductive PipelineState where
  | START | SIZE_CHECK | LOAD_XML | INPROG | REG_SYSTEM | ALLOC_RUN | INS_RUN
  | INS_MEAS | MOVE_REPORT | COMMIT
  | DONE (status : SubmissionStatus)
  deriving DecidableEq

/-- Modelled from the spec: what happens to one job, i.e. the events of the
transition table of section 4.6 (the size of the report file and whether each
step of the pipeline succeeds). -/
structure JobEvents where
  size : Nat
  xml_parsed : Bool
  syskey_ok : Bool
  rterid_ok : Bool
  ins_run_ok : Bool
  ins_meas_ok : Bool
  move_ok : Bool
  commit_ok : Bool
  deriving DecidableEq

/-- Modelled from the spec: one row of the transition table of section 4.6,
"From | Event | To". The two `SIZE_CHECK` rows read "size ≤ max or max=0"
(go on to `LOAD_XML`) and "size > max" (`DONE(FILE_TOO_BIG)`); the worker
body that implements them is not among the sources. -/
def pipelineStep (thr : threadData_t) (ev : JobEvents) : PipelineState → PipelineState
  | .START => .SIZE_CHECK
  | .SIZE_CHECK =>
      if ev.size ≤ thr.max_report_size ∨ thr.max_report_size = 0 then .LOAD_XML
      else .DONE .FILE_TOO_BIG
  | .LOAD_XML => if ev.xml_parsed then .INPROG else .DONE .XML_FAIL
  | .INPROG => .REG_SYSTEM
  | .REG_SYSTEM => if ev.syskey_ok then .ALLOC_RUN else .DONE .SYSREG_FAIL
  | .ALLOC_RUN => if ev.rterid_ok then .INS_RUN else .DONE .RTERID_FAIL
  | .INS_RUN => if ev.ins_run_ok then .INS_MEAS else .DONE .RTEVALRUN_FAIL
  | .INS_MEAS => if ev.ins_meas_ok then .MOVE_REPORT else .DONE .MEASURE_FAIL
  | .MOVE_REPORT => if ev.move_ok then .COMMIT else .DONE .REPMOVE_FAIL
  | .COMMIT => if ev.commit_ok then .DONE .SUCCESS else .DONE .DB_FAIL
  | .DONE s => .DONE s

/-- Modelled from the spec: the status a state writes to the queue row when it
is entered ("LOAD_XML | parsed | INPROG | mark status INPROG", and the
terminal action `update_submissionqueue(submid, state)` on every `DONE`). -/
def statusWritten : PipelineState → Option SubmissionStatus
  | .INPROG => some .INPROG
  | .DONE s => some s
  | _ => none

/-- Modelled from the spec: the states a job goes through from `st` on, up to
and including its `DONE` state (`fuel` bounds the number of transitions). -/
def pipelinePath (thr : threadData_t) (ev : JobEvents) : Nat → PipelineState → List PipelineState
  | _, .DONE s => [.DONE s]
  | 0, st => [st]
  | fuel + 1, st => st :: pipelinePath thr ev fuel (pipelineStep thr ev st)

/-- Modelled from the spec: the codes stored in the queue row of one job over
its life: `NEW` when the row is queued, `ASSIGNED` when
`get_submissionqueue_job` claims it, then every status the pipeline writes. -/
def rowHistory (thr : threadData_t) (ev : JobEvents) : List Nat :=
  ([SubmissionStatus.NEW, SubmissionStatus.ASSIGNED] ++
    (pipelinePath thr ev 10 .START).filterMap statusWritten).map SubmissionStatus.code

/-- Modelled from the spec: the terminal status of a job, the one carried by
the `DONE` state its path ends in. -/
def terminalStatus (thr : threadData_t) (ev : JobEvents) : Option SubmissionStatus :=
  match (pipelinePath thr ev 10 .START).getLast? with
  | some (.DONE s) => some s
  | _ => none

/-! ## parsethread.h -/

/-- `typedef enum { jbNONE, jbAVAIL } jobStatus;`: jbNONE means no job
available, jbAVAIL indicates that parseJob_t contains a job. -/
inductive jobStatus where
  | jbNONE | jbAVAIL
  deriving DecidableEq

/-- The integer value of an enumerator: the first one is 0, each further one
is the previous plus one. -/
def jobStatus.toNat : jobStatus → Nat
  | .jbNONE => 0
  | .jbAVAIL => 1

/-- `char clientid[256]`: the number of bytes of the client id buffer. -/
def sizeof_clientid : Nat := 256

/-- `char filename[4096]`: the number of bytes of the file name buffer. -/
def sizeof_filename : Nat := 4096

/-- The struct used for sending a parse job to a worker thread via POSIX MQ.
The two `char` arrays are lists of bytes of exactly the declared size. -/
structure parseJob_t where
  status : jobStatus
  submid : Nat
  clientid : List Nat
  filename : List Nat
  clientid_size : clientid.length = sizeof_clientid
  filename_size : filename.length = sizeof_filename

/-- A `char` buffer holds the C string `s`: the bytes of `s`, none of them
NUL, stand at the start of the buffer and the terminating NUL byte follows
them inside the buffer. -/
def holdsCString (buf s : List Nat) : Bool :=
  s.all (fun b => b != 0) && buf.take (s.length + 1) == s ++ [0]

/-- The bytes of `s` followed by NUL bytes up to `cap` bytes in all, cut at
`cap`: a buffer of `cap` bytes filled from `s`. -/
def fillBuffer (cap : Nat) (s : List Nat) : List Nat :=
  (s ++ List.replicate (cap - s.length) 0).take cap

/-! ## eurephia_nullsafe.c -/

/-- `LOG_EMERG` of `<syslog.h>`: system is unusable. -/
def LOG_EMERG : Nat := 0

/-- `SIZE_MAX`: the largest value of `size_t` (64 bit). -/
def SIZE_MAX : Nat := 2 ^ 64 - 1

/-- What the process does that is visible from outside: a call of
`writelog(lctx, loglvl, fmt, ...)` and a call of `exit(status)`. -/
inductive Event where
  | writelog (lctx : Nat) (loglvl : Nat) (fmt : String) (args : List Nat)
  | exit (status : Nat)
  deriving DecidableEq

/-- The allocated memory regions: the address of each with its bytes, the
most recently allocated one first. -/
structure Heap where
  blocks : List (Nat × List Nat)
  deriving DecidableEq

/-- The bytes of the region that starts at address `p`. -/
def Heap.region (h : Heap) (p : Nat) : Option (List Nat) :=
  (h.blocks.find? (fun b => b.1 == p)).map (fun b => b.2)

/-- The state of the process: its heap and the events so far, oldest first. -/
structure World where
  heap : Heap
  trace : List Event
  deriving DecidableEq

/-- How a call ends: it returns a value to its caller, or the process has
terminated with an exit status and nothing is returned. -/
inductive Outcome (α : Type) where
  | returned (value : α) (w : World)
  | exited (status : Nat) (w : World)
  deriving DecidableEq

/-- The C library's `calloc(nmemb, size)`. `grant` is the answer of the
allocator: the address of the new region, or 0 when it has no memory to give.
A request whose byte count overflows `size_t` fails. On success the region
has `nmemb * size` bytes, all zero. Returns the pointer (0 is `NULL`). -/
def calloc (grant : Nat) (h : Heap) (nmemb size : Nat) : Nat × Heap :=
  if grant = 0 ∨ SIZE_MAX < nmemb * size then (0, h)
  else (grant, { blocks := (grant, List.replicate (nmemb * size) 0) :: h.blocks })

/-- The function
`void *malloc_nullsafe(LogContext *log, size_t sz)`:
`buf = calloc(1, sz); if( !buf ) { writelog(log, LOG_EMERG, ...); exit(9); }
return buf;` -/
def malloc_nullsafe (grant : Nat) (w : World) (log : Nat) (sz : Nat) : Outcome Nat :=
  let r := calloc grant w.heap 1 sz
  let buf := r.1
  let w1 : World := { heap := r.2, trace := w.trace }
  if buf = 0 then
    let w2 : World := { w1 with trace := w1.trace ++
      [Event.writelog log LOG_EMERG "Could not allocate memory region for %ld bytes" [sz]] }
    let w3 : World := { w2 with trace := w2.trace ++ [Event.exit 9] }
    Outcome.exited 9 w3
  else
    Outcome.returned buf w1

/-! ## xmlparser.h -/

/-- C3: each of the thirteen submission statuses of the specification has
exactly one defining `STAT_*` macro of `statuses.h` (and the header defines
no other), the thirteen codes are pairwise distinct, and they are exactly
0, 1, ..., 12 in the order the specification lists the statuses; so the
integer in the queue row tells any two statuses apart. -/
theorem status_codes_distinct_0_to_12 :
    SubmissionStatus.all.length = 13 ∧
    SubmissionStatus.all.Nodup ∧
    (∀ s : SubmissionStatus, s ∈ SubmissionStatus.all) ∧
    (∀ s : SubmissionStatus, definitionsOf s.statName = [s.code]) ∧
    statuses_h.map Prod.fst = SubmissionStatus.all.map SubmissionStatus.statName ∧
    (SubmissionStatus.all.map SubmissionStatus.code).Nodup ∧
    SubmissionStatus.all.map SubmissionStatus.code = List.range 13 ∧
    (∀ s t : SubmissionStatus, s ≠ t ↔ s.code ≠ t.code) := by
  refine ⟨by decide, by decide, ?_, ?_, by decide, by decide, by decide, ?_⟩
  · intro s; cases s <;> decide
  · intro s; cases s <;> decide
  · intro s t; cases s <;> cases t <;> decide


/-! ## Properties of the per-job state machine -/

/-- The queue row of a job that passes the size check: the job ends in a
terminal status other than `FILE_TOO_BIG`, and the row goes through
`NEW, ASSIGNED, INPROG` and that status, or through `NEW, ASSIGNED, XML_FAIL`
when the report does not parse. -/
theorem rowHistory_of_size_ok (thr : threadData_t) (ev : JobEvents)
    (h : ev.size ≤ thr.max_report_size ∨ thr.max_report_size = 0) :
    (terminalStatus thr ev).isSome = true ∧
    ∀ t : SubmissionStatus, terminalStatus thr ev = some t →
      t.isTerminal = true ∧ t ≠ .FILE_TOO_BIG ∧
      (rowHistory thr ev = [STAT_NEW, STAT_ASSIGNED, STAT_INPROG, t.code] ∨
       (t = .XML_FAIL ∧ rowHistory thr ev = [STAT_NEW, STAT_ASSIGNED, t.code])) := by
  obtain ⟨m⟩ := thr
  obtain ⟨sz, b1, b2, b3, b4, b5, b6, b7⟩ := ev
  simp only at h
  cases b1 <;> cases b2 <;> cases b3 <;> cases b4 <;> cases b5 <;> cases b6 <;> cases b7 <;>
    simp [rowHistory, terminalStatus, pipelinePath, pipelineStep, statusWritten, h,
      SubmissionStatus.code, SubmissionStatus.isTerminal]

/-- The queue row of a job that fails the size check goes through
`NEW, ASSIGNED, FILE_TOO_BIG`. -/
theorem rowHistory_of_too_big (thr : threadData_t) (ev : JobEvents)
    (h : ¬ (ev.size ≤ thr.max_report_size ∨ thr.max_report_size = 0)) :
    terminalStatus thr ev = some .FILE_TOO_BIG ∧
      rowHistory thr ev = [STAT_NEW, STAT_ASSIGNED, STAT_FTOOBIG] := by
  obtain ⟨m⟩ := thr
  obtain ⟨sz, b1, b2, b3, b4, b5, b6, b7⟩ := ev
  simp only at h
  simp [rowHistory, terminalStatus, pipelinePath, pipelineStep, statusWritten, h,
      SubmissionStatus.code]

/-- The size check passes exactly when the limit is off or the size is not
above it. -/
theorem size_ok_iff (m s : Nat) : (s ≤ m ∨ m = 0) ↔ ¬ (m ≠ 0 ∧ s > m) := by
  omega

/-- Every job ends in a terminal status, and its queue row goes through
`NEW, ASSIGNED, INPROG`, terminal, or through `NEW, ASSIGNED`, terminal when
it ends in `FILE_TOO_BIG` or `XML_FAIL`. -/
theorem rowHistory_shape (thr : threadData_t) (ev : JobEvents) :
    ∃ t : SubmissionStatus, t.isTerminal = true ∧ terminalStatus thr ev = some t ∧
      (rowHistory thr ev = [STAT_NEW, STAT_ASSIGNED, STAT_INPROG, t.code] ∨
       ((t = .FILE_TOO_BIG ∨ t = .XML_FAIL) ∧
          rowHistory thr ev = [STAT_NEW, STAT_ASSIGNED, t.code])) := by
  by_cases h : ev.size ≤ thr.max_report_size ∨ thr.max_report_size = 0
  · obtain ⟨hs, ht⟩ := rowHistory_of_size_ok thr ev h
    obtain ⟨t, hte⟩ := Option.isSome_iff_exists.mp hs
    obtain ⟨h1, _, h3⟩ := ht t hte
    refine ⟨t, h1, hte, ?_⟩
    rcases h3 with h3 | ⟨h3, h4⟩
    · exact Or.inl h3
    · exact Or.inr ⟨Or.inr h3, h4⟩
  · obtain ⟨h1, h2⟩ := rowHistory_of_too_big thr ev h
    exact ⟨.FILE_TOO_BIG, by decide, h1, Or.inr ⟨Or.inl rfl, h2⟩⟩

/-- The code of every terminal status is above `STAT_INPROG`. -/
theorem inprog_lt_terminal (s : SubmissionStatus) (h : s.isTerminal = true) :
    STAT_INPROG < s.code := by
  cases s <;> first | decide | exact absurd h (by decide)

/-- C2: the code stored in the queue row never regresses. With the codes of
`statuses.h`, `STAT_NEW < STAT_ASSIGNED < STAT_INPROG`; the terminal statuses
are exactly those with a code from `STAT_SUCCESS` to `STAT_FTOOBIG`, and each
is above `STAT_INPROG`; every job's row goes through NEW, ASSIGNED, INPROG,
terminal, or through NEW, ASSIGNED, terminal when it ends in `FILE_TOO_BIG` or
`XML_FAIL`; and along that history each code is strictly greater than the one
before. -/
theorem status_never_regresses :
    STAT_NEW < STAT_ASSIGNED ∧ STAT_ASSIGNED < STAT_INPROG ∧
    (∀ s : SubmissionStatus,
      s.isTerminal = true ↔ STAT_SUCCESS ≤ s.code ∧ s.code ≤ STAT_FTOOBIG) ∧
    (∀ s : SubmissionStatus, s.isTerminal = true → STAT_INPROG < s.code) ∧
    (∀ (thr : threadData_t) (ev : JobEvents),
      ∃ t : SubmissionStatus, t.isTerminal = true ∧ terminalStatus thr ev = some t ∧
        (rowHistory thr ev = [STAT_NEW, STAT_ASSIGNED, STAT_INPROG, t.code] ∨
         ((t = .FILE_TOO_BIG ∨ t = .XML_FAIL) ∧
            rowHistory thr ev = [STAT_NEW, STAT_ASSIGNED, t.code]))) ∧
    (∀ (thr : threadData_t) (ev : JobEvents),
      (rowHistory thr ev).Chain' (fun a b => a < b)) := by
  refine ⟨by decide, by decide, ?_, inprog_lt_terminal, rowHistory_shape, ?_⟩
  · intro s; cases s <;> decide
  · intro thr ev
    obtain ⟨t, ht, _, h | ⟨_, h⟩⟩ := rowHistory_shape thr ev
    · have := inprog_lt_terminal t ht
      rw [h]
      simp only [List.chain'_cons, List.chain'_singleton, and_true]
      exact ⟨by decide, by decide, this⟩
    · have := inprog_lt_terminal t ht
      rw [h]
      simp only [List.chain'_cons, List.chain'_singleton, and_true]
      exact ⟨by decide, lt_trans (by decide) this⟩

/-- C2 at a concrete terminal status and two concrete jobs: `FILE_TOO_BIG` is
terminal and its code is above `STAT_INPROG`; a job whose report is too big
goes 0, 1, 12 and a job that succeeds goes 0, 1, 2, 3. -/
theorem status_never_regresses_witness :
    SubmissionStatus.isTerminal .FILE_TOO_BIG = true ∧
    STAT_INPROG < SubmissionStatus.code .FILE_TOO_BIG ∧
    rowHistory ⟨4095⟩ ⟨4096, true, true, true, true, true, true, true⟩ = [0, 1, 12] ∧
    rowHistory ⟨4096⟩ ⟨4096, true, true, true, true, true, true, true⟩ = [0, 1, 2, 3] :=
  ⟨by decide, status_never_regresses.2.2.2.1 .FILE_TOO_BIG (by decide), by decide, by decide⟩

/-- C4: the size check ends the job with `FILE_TOO_BIG` (code 12) if and only
if the limit `max_report_size` is not 0 and the size is above it, and lets the
job go on to `LOAD_XML` otherwise; `FILE_TOO_BIG` is the job's terminal status
under the same condition. A limit of 0 accepts every size, a size equal to
the limit is accepted (4096 with limit 4096), and a size one above a nonzero
limit is rejected (4096 with limit 4095). -/
theorem size_check_file_too_big :
    (∀ (thr : threadData_t) (ev : JobEvents),
      pipelineStep thr ev .SIZE_CHECK = .DONE .FILE_TOO_BIG ↔
        thr.max_report_size ≠ 0 ∧ ev.size > thr.max_report_size) ∧
    (∀ (thr : threadData_t) (ev : JobEvents),
      pipelineStep thr ev .SIZE_CHECK = .LOAD_XML ↔
        ¬ (thr.max_report_size ≠ 0 ∧ ev.size > thr.max_report_size)) ∧
    (∀ (thr : threadData_t) (ev : JobEvents),
      terminalStatus thr ev = some .FILE_TOO_BIG ↔
        thr.max_report_size ≠ 0 ∧ ev.size > thr.max_report_size) ∧
    SubmissionStatus.code .FILE_TOO_BIG = STAT_FTOOBIG ∧ STAT_FTOOBIG = 12 ∧
    (∀ ev : JobEvents, pipelineStep ⟨0⟩ ev .SIZE_CHECK = .LOAD_XML) ∧
    (∀ (thr : threadData_t) (ev : JobEvents), ev.size = thr.max_report_size →
      pipelineStep thr ev .SIZE_CHECK = .LOAD_XML) ∧
    (∀ (thr : threadData_t) (ev : JobEvents), thr.max_report_size ≠ 0 →
      ev.size = thr.max_report_size + 1 →
      pipelineStep thr ev .SIZE_CHECK = .DONE .FILE_TOO_BIG) ∧
    (∀ ev : JobEvents, ev.size = 4096 →
      pipelineStep ⟨4096⟩ ev .SIZE_CHECK = .LOAD_XML ∧
      pipelineStep ⟨4095⟩ ev .SIZE_CHECK = .DONE .FILE_TOO_BIG) := by
  have step_big : ∀ (thr : threadData_t) (ev : JobEvents),
      pipelineStep thr ev .SIZE_CHECK = .DONE .FILE_TOO_BIG ↔
        thr.max_report_size ≠ 0 ∧ ev.size > thr.max_report_size := by
    intro thr ev
    by_cases h : ev.size ≤ thr.max_report_size ∨ thr.max_report_size = 0
    · have h2 := (size_ok_iff _ _).mp h
      rw [show pipelineStep thr ev .SIZE_CHECK = .LOAD_XML from if_pos h]
      exact ⟨fun hc => (by cases hc), fun hc => absurd hc h2⟩
    · have h2 : thr.max_report_size ≠ 0 ∧ ev.size > thr.max_report_size := by omega
      rw [show pipelineStep thr ev .SIZE_CHECK = .DONE .FILE_TOO_BIG from if_neg h]
      exact ⟨fun _ => h2, fun _ => rfl⟩
  have step_ok : ∀ (thr : threadData_t) (ev : JobEvents),
      pipelineStep thr ev .SIZE_CHECK = .LOAD_XML ↔
        ¬ (thr.max_report_size ≠ 0 ∧ ev.size > thr.max_report_size) := by
    intro thr ev
    by_cases h : ev.size ≤ thr.max_report_size ∨ thr.max_report_size = 0
    · have h2 := (size_ok_iff _ _).mp h
      rw [show pipelineStep thr ev .SIZE_CHECK = .LOAD_XML from if_pos h]
      exact ⟨fun _ => h2, fun _ => rfl⟩
    · have h2 : thr.max_report_size ≠ 0 ∧ ev.size > thr.max_report_size := by omega
      rw [show pipelineStep thr ev .SIZE_CHECK = .DONE .FILE_TOO_BIG from if_neg h]
      exact ⟨fun hc => (by cases hc), fun hc => absurd h2 hc⟩
  refine ⟨step_big, step_ok, ?_, rfl, rfl, ?_, ?_, ?_, ?_⟩
  · intro thr ev
    by_cases h : ev.size ≤ thr.max_report_size ∨ thr.max_report_size = 0
    · have h2 := (size_ok_iff _ _).mp h
      obtain ⟨_, ht⟩ := rowHistory_of_size_ok thr ev h
      exact ⟨fun hc => absurd rfl (ht _ hc).2.1, fun hc => absurd hc h2⟩
    · have h2 : thr.max_report_size ≠ 0 ∧ ev.size > thr.max_report_size := by omega
      exact ⟨fun _ => h2, fun _ => (rowHistory_of_too_big thr ev h).1⟩
  · intro ev
    exact (step_ok ⟨0⟩ ev).mpr (fun hc => hc.1 rfl)
  · intro thr ev he
    exact (step_ok thr ev).mpr (fun hc => by omega)
  · intro thr ev hm he
    exact (step_big thr ev).mpr ⟨hm, by omega⟩
  · intro ev he
    refine ⟨(step_ok ⟨4096⟩ ev).mpr (fun hc => ?_), (step_big ⟨4095⟩ ev).mpr ⟨by decide, ?_⟩⟩
    · have := hc.2
      simp only [he] at this
      omega
    · simp only [he]
      omega

/-- C4 at concrete jobs: a report of 4096 bytes passes the size check under
the limit 4096 and under the limit 0, and ends in `FILE_TOO_BIG` under the
limit 4095. -/
theorem size_check_file_too_big_witness :
    pipelineStep ⟨4096⟩ ⟨4096, true, true, true, true, true, true, true⟩ .SIZE_CHECK
      = .LOAD_XML ∧
    pipelineStep ⟨4095⟩ ⟨4096, true, true, true, true, true, true, true⟩ .SIZE_CHECK
      = .DONE .FILE_TOO_BIG ∧
    pipelineStep ⟨0⟩ ⟨4096, true, true, true, true, true, true, true⟩ .SIZE_CHECK
      = .LOAD_XML ∧
    terminalStatus ⟨4095⟩ ⟨4096, true, true, true, true, true, true, true⟩
      = some .FILE_TOO_BIG :=
  ⟨size_check_file_too_big.2.2.2.2.2.2.1 ⟨4096⟩ _ rfl,
   size_check_file_too_big.2.2.2.2.2.2.2.1 ⟨4095⟩ _ (by decide) rfl,
   size_check_file_too_big.2.2.2.2.2.1 _,
   (size_check_file_too_big.2.2.1 ⟨4095⟩ _).mpr ⟨by decide, by decide⟩⟩

/-! ## Properties of malloc_nullsafe -/

/-- When `calloc(1, sz)` yields `NULL`, `malloc_nullsafe` does not return: it
calls `writelog` at `LOG_EMERG`, then `exit(9)`, and the heap is as before. -/
theorem malloc_nullsafe_of_null (grant : Nat) (w : World) (log sz : Nat)
    (h : (calloc grant w.heap 1 sz).1 = 0) :
    malloc_nullsafe grant w log sz =
      .exited 9 { heap := w.heap, trace := w.trace ++
        [.writelog log LOG_EMERG "Could not allocate memory region for %ld bytes" [sz],
         .exit 9] } := by
  have h2 : (calloc grant w.heap 1 sz).2 = w.heap := by
    unfold calloc at h ⊢
    split
    · rfl
    · rename_i hc; rw [if_neg hc] at h; simp only at h; exact absurd (Or.inl h) hc
  simp only [malloc_nullsafe, h, h2, if_true, List.append_assoc, List.cons_append,
    List.nil_append]

/-- When `calloc(1, sz)` yields a pointer that is not `NULL`, `malloc_nullsafe`
returns that pointer, logs nothing, and the heap is the one `calloc` left. -/
theorem malloc_nullsafe_of_nonnull (grant : Nat) (w : World) (log sz : Nat)
    (h : (calloc grant w.heap 1 sz).1 ≠ 0) :
    malloc_nullsafe grant w log sz =
      .returned (calloc grant w.heap 1 sz).1
        { heap := (calloc grant w.heap 1 sz).2, trace := w.trace } := by
  simp only [malloc_nullsafe, if_neg h]

/-- A successful `calloc(1, sz)` hands out the granted address and puts a
region of `sz` zero bytes there. -/
theorem calloc_one_of_nonnull (grant : Nat) (h : Heap) (sz : Nat)
    (hp : (calloc grant h 1 sz).1 ≠ 0) :
    (calloc grant h 1 sz).1 = grant ∧
    (calloc grant h 1 sz).2.region grant = some (List.replicate sz 0) := by
  unfold calloc at hp ⊢
  split
  · rename_i hc; rw [if_pos hc] at hp; exact absurd rfl hp
  · simp [Heap.region]

/-- C1: for every size `sz`, when the zero-filling allocation `calloc(1, sz)`
yields no memory, `malloc_nullsafe` first calls `writelog` at level
`LOG_EMERG` and then `exit(9)`, and does not return; so every value it
returns to its caller is a pointer that is not `NULL`. -/
theorem malloc_nullsafe_fatal_on_failure :
    (∀ (grant : Nat) (w : World) (log sz : Nat), (calloc grant w.heap 1 sz).1 = 0 →
      malloc_nullsafe grant w log sz =
        .exited 9 { heap := w.heap, trace := w.trace ++
          [.writelog log LOG_EMERG "Could not allocate memory region for %ld bytes" [sz],
           .exit 9] }) ∧
    (∀ (grant : Nat) (w : World) (log sz p : Nat) (w1 : World),
      malloc_nullsafe grant w log sz = .returned p w1 → p ≠ 0) := by
  refine ⟨malloc_nullsafe_of_null, ?_⟩
  intro grant w log sz p w1 hret
  by_cases h : (calloc grant w.heap 1 sz).1 = 0
  · rw [malloc_nullsafe_of_null grant w log sz h] at hret
    cases hret
  · rw [malloc_nullsafe_of_nonnull grant w log sz h] at hret
    cases hret
    exact h

/-- C1 at concrete inputs: with no memory to give, a request for 16 bytes
logs at level 0 and exits with status 9; with memory granted at address 4096
the returned pointer 4096 is not `NULL`. -/
theorem malloc_nullsafe_fatal_on_failure_witness :
    (calloc 0 ⟨[]⟩ 1 16).1 = 0 ∧
    malloc_nullsafe 0 ⟨⟨[]⟩, []⟩ 7 16 =
      .exited 9 ⟨⟨[]⟩,
        [.writelog 7 0 "Could not allocate memory region for %ld bytes" [16], .exit 9]⟩ ∧
    malloc_nullsafe 4096 ⟨⟨[]⟩, []⟩ 7 16 =
      .returned 4096 ⟨⟨[(4096, List.replicate 16 0)]⟩, []⟩ ∧
    (4096 : Nat) ≠ 0 :=
  ⟨by decide,
   malloc_nullsafe_fatal_on_failure.1 0 ⟨⟨[]⟩, []⟩ 7 16 (by decide),
   by decide,
   malloc_nullsafe_fatal_on_failure.2 4096 ⟨⟨[]⟩, []⟩ 7 16 4096
     ⟨⟨[(4096, List.replicate 16 0)]⟩, []⟩ (by decide)⟩

/-- C6: whenever `malloc_nullsafe` returns (the allocation succeeded), the
returned pointer designates a region of exactly `sz` bytes in the heap, every
byte of which is zero; and it does return whenever the allocator grants an
address for a size that fits `size_t`. -/
theorem malloc_nullsafe_zeroed_region :
    (∀ (grant : Nat) (w : World) (log sz p : Nat) (w1 : World),
      malloc_nullsafe grant w log sz = .returned p w1 →
      ∃ bytes : List Nat, w1.heap.region p = some bytes ∧ bytes.length = sz ∧
        (∀ b ∈ bytes, b = 0) ∧ bytes = List.replicate sz 0) ∧
    (∀ (grant : Nat) (w : World) (log sz : Nat), grant ≠ 0 → sz ≤ SIZE_MAX →
      ∃ w1 : World, malloc_nullsafe grant w log sz = .returned grant w1) := by
  constructor
  · intro grant w log sz p w1 hret
    by_cases h : (calloc grant w.heap 1 sz).1 = 0
    · rw [malloc_nullsafe_of_null grant w log sz h] at hret
      cases hret
    · rw [malloc_nullsafe_of_nonnull grant w log sz h] at hret
      obtain ⟨hg, hr⟩ := calloc_one_of_nonnull grant w.heap sz h
      cases hret
      rw [hg]
      exact ⟨List.replicate sz 0, hr, List.length_replicate _ _,
        fun b hb => List.eq_of_mem_replicate hb, rfl⟩
  · intro grant w log sz hg hsz
    have h : (calloc grant w.heap 1 sz).1 = grant := by
      unfold calloc
      rw [if_neg (by rw [Nat.one_mul]; omega)]
    have hne : (calloc grant w.heap 1 sz).1 ≠ 0 := by rw [h]; exact hg
    exact ⟨_, by rw [malloc_nullsafe_of_nonnull grant w log sz hne, h]⟩

/-- C6 at a concrete input: a request for 4 bytes granted at address 4096
returns 4096, and the region there is the four bytes 0, 0, 0, 0. -/
theorem malloc_nullsafe_zeroed_region_witness :
    malloc_nullsafe 4096 ⟨⟨[]⟩, []⟩ 7 4 = .returned 4096 ⟨⟨[(4096, [0, 0, 0, 0])]⟩, []⟩ ∧
    ∃ bytes : List Nat,
      Heap.region ⟨[(4096, [0, 0, 0, 0])]⟩ 4096 = some bytes ∧ bytes.length = 4 ∧
        (∀ b ∈ bytes, b = 0) ∧ bytes = List.replicate 4 0 :=
  ⟨by decide,
   malloc_nullsafe_zeroed_region.1 4096 ⟨⟨[]⟩, []⟩ 7 4 4096
     ⟨⟨[(4096, [0, 0, 0, 0])]⟩, []⟩ (by decide)⟩

/-- C7, as the doc comment of `malloc_nullsafe` has it, fails: with no memory
to give, a request for 16 bytes makes `calloc` yield `NULL`, and
`malloc_nullsafe` then returns nothing to its caller, `NULL` included: the
process exits with status 9. -/
theorem malloc_nullsafe_returns_null_counterexample :
    (calloc 0 ⟨[]⟩ 1 16).1 = 0 ∧
    (¬ ∃ w1 : World, malloc_nullsafe 0 ⟨⟨[]⟩, []⟩ 7 16 = .returned 0 w1) ∧
    malloc_nullsafe 0 ⟨⟨[]⟩, []⟩ 7 16 =
      .exited 9 ⟨⟨[]⟩,
        [.writelog 7 0 "Could not allocate memory region for %ld bytes" [16], .exit 9]⟩ := by
  refine ⟨by decide, ?_, by decide⟩
  rintro ⟨w1, h⟩
  rw [malloc_nullsafe_of_null 0 ⟨⟨[]⟩, []⟩ 7 16 (by decide)] at h
  cases h

/-- C7 amended: `malloc_nullsafe` returns the pointer to the memory region
(`sz` zero bytes, nothing logged) when the allocation succeeds; when the
allocation fails it returns nothing to its caller (hence never `NULL`): it
calls `writelog` at level `LOG_EMERG` and after that `exit(9)`, these two
being all it adds to the trace, with the heap unchanged. -/
theorem malloc_nullsafe_returns_or_exits (grant : Nat) (w : World) (log sz : Nat) :
    ((calloc grant w.heap 1 sz).1 ≠ 0 →
      malloc_nullsafe grant w log sz =
        .returned (calloc grant w.heap 1 sz).1
          { heap := (calloc grant w.heap 1 sz).2, trace := w.trace } ∧
      (calloc grant w.heap 1 sz).2.region (calloc grant w.heap 1 sz).1 =
        some (List.replicate sz 0)) ∧
    ((calloc grant w.heap 1 sz).1 = 0 →
      malloc_nullsafe grant w log sz =
        .exited 9 { heap := w.heap, trace := w.trace ++
          [.writelog log LOG_EMERG "Could not allocate memory region for %ld bytes" [sz],
           .exit 9] } ∧
      ∀ (p : Nat) (w1 : World), malloc_nullsafe grant w log sz ≠ .returned p w1) := by
  constructor
  · intro h
    obtain ⟨hg, hr⟩ := calloc_one_of_nonnull grant w.heap sz h
    refine ⟨malloc_nullsafe_of_nonnull grant w log sz h, ?_⟩
    rw [hg]
    exact hr
  · intro h
    rw [malloc_nullsafe_of_null grant w log sz h]
    exact ⟨rfl, fun p w1 hc => by cases hc⟩

/-- C7 amended, at concrete inputs: granted the address 4096, a request for 4
bytes returns 4096 with four zero bytes there and an empty trace; with nothing
granted, a request for 16 bytes logs at level 0 (`LOG_EMERG`), then exits
with status 9, and returns nothing. -/
theorem malloc_nullsafe_returns_or_exits_witness :
    (calloc 4096 ⟨[]⟩ 1 4).1 ≠ 0 ∧ (calloc 0 ⟨[]⟩ 1 16).1 = 0 ∧
    (malloc_nullsafe 4096 ⟨⟨[]⟩, []⟩ 7 4 =
        .returned (calloc 4096 ⟨[]⟩ 1 4).1
          { heap := (calloc 4096 ⟨[]⟩ 1 4).2, trace := [] } ∧
      (calloc 4096 ⟨[]⟩ 1 4).2.region (calloc 4096 ⟨[]⟩ 1 4).1 =
        some (List.replicate 4 0)) ∧
    (malloc_nullsafe 0 ⟨⟨[]⟩, []⟩ 7 16 =
        .exited 9 { heap := ⟨[]⟩, trace := [] ++
          [.writelog 7 LOG_EMERG "Could not allocate memory region for %ld bytes" [16],
           .exit 9] } ∧
      ∀ (p : Nat) (w1 : World), malloc_nullsafe 0 ⟨⟨[]⟩, []⟩ 7 16 ≠ .returned p w1) :=
  ⟨by decide, by decide,
   (malloc_nullsafe_returns_or_exits 4096 ⟨⟨[]⟩, []⟩ 7 4).1 (by decide),
   (malloc_nullsafe_returns_or_exits 0 ⟨⟨[]⟩, []⟩ 7 16).2 (by decide)⟩

/-! ## Properties of the job record -/

/-- A buffer that holds the C string `s` has room for the bytes of `s` and
one more. -/
theorem length_lt_of_holdsCString (buf s : List Nat) (h : holdsCString buf s = true) :
    s.length + 1 ≤ buf.length := by
  simp only [holdsCString, Bool.and_eq_true, beq_iff_eq] at h
  have hl := congrArg List.length h.2
  simp only [List.length_take, List.length_append, List.length_singleton] at hl
  omega

/-- A buffer of `cap` bytes filled from a string without NUL bytes that is
shorter than `cap` has `cap` bytes and holds the string. -/
theorem holdsCString_fillBuffer (cap : Nat) (s : List Nat) (hs : ∀ b ∈ s, b ≠ 0)
    (hl : s.length < cap) :
    (fillBuffer cap s).length = cap ∧ holdsCString (fillBuffer cap s) s = true := by
  constructor
  · simp only [fillBuffer, List.length_take, List.length_append, List.length_replicate]
    omega
  · simp only [holdsCString, Bool.and_eq_true, beq_iff_eq, List.all_eq_true, bne_iff_ne]
    refine ⟨hs, ?_⟩
    obtain ⟨k, hk⟩ : ∃ k, cap - s.length = k + 1 := ⟨cap - s.length - 1, by omega⟩
    simp only [fillBuffer, hk, List.take_take, List.replicate_succ]
    rw [Nat.min_eq_left (by omega), List.take_append_eq_append_take]
    simp

/-- C5: the job record can hold every job the specification allows: for every
client id of at most 255 bytes and every file name of at most 4095 bytes
(strings without NUL bytes) there is a `parseJob_t` whose buffers
`clientid[256]` and `filename[4096]` hold them with their terminating NUL;
255 and 4095 are the largest such lengths, as no `parseJob_t` holds a longer
string; and `jobStatus` has exactly the two values `jbNONE` = 0 and
`jbAVAIL` = 1. -/
theorem parseJob_t_capacity :
    (∀ (st : jobStatus) (submid : Nat) (cid fn : List Nat),
      (∀ b ∈ cid, b ≠ 0) → (∀ b ∈ fn, b ≠ 0) → cid.length ≤ 255 → fn.length ≤ 4095 →
      ∃ j : parseJob_t, j.status = st ∧ j.submid = submid ∧
        holdsCString j.clientid cid = true ∧ holdsCString j.filename fn = true) ∧
    (∀ (j : parseJob_t) (s : List Nat), holdsCString j.clientid s = true → s.length ≤ 255) ∧
    (∀ (j : parseJob_t) (s : List Nat), holdsCString j.filename s = true → s.length ≤ 4095) ∧
    sizeof_clientid = 255 + 1 ∧ sizeof_filename = 4095 + 1 ∧
    (∀ st : jobStatus, st = .jbNONE ∨ st = .jbAVAIL) ∧
    jobStatus.jbNONE ≠ jobStatus.jbAVAIL ∧
    jobStatus.toNat .jbNONE = 0 ∧ jobStatus.toNat .jbAVAIL = 1 := by
  refine ⟨?_, ?_, ?_, rfl, rfl, ?_, by decide, rfl, rfl⟩
  · intro st submid cid fn hc hf hcl hfl
    obtain ⟨c1, c2⟩ := holdsCString_fillBuffer sizeof_clientid cid hc
      (by simp only [sizeof_clientid]; omega)
    obtain ⟨f1, f2⟩ := holdsCString_fillBuffer sizeof_filename fn hf
      (by simp only [sizeof_filename]; omega)
    exact ⟨⟨st, submid, fillBuffer sizeof_clientid cid, fillBuffer sizeof_filename fn, c1, f1⟩,
      rfl, rfl, c2, f2⟩
  · intro j s h
    have := length_lt_of_holdsCString _ _ h
    rw [j.clientid_size] at this
    simp only [sizeof_clientid] at this
    omega
  · intro j s h
    have := length_lt_of_holdsCString _ _ h
    rw [j.filename_size] at this
    simp only [sizeof_filename] at this
    omega
  · intro st; cases st
    · exact Or.inl rfl
    · exact Or.inr rfl

/-- C5 at a concrete job: the client id "h1" and the file name "/a" are held
by a job record with status `jbAVAIL` and submission id 1. -/
theorem parseJob_t_capacity_witness :
    (∀ b ∈ [104, 49], b ≠ 0) ∧ (∀ b ∈ [47, 97], b ≠ 0) ∧
    [104, 49].length ≤ 255 ∧ [47, 97].length ≤ 4095 ∧
    ∃ j : parseJob_t, j.status = .jbAVAIL ∧ j.submid = 1 ∧
      holdsCString j.clientid [104, 49] = true ∧ holdsCString j.filename [47, 97] = true :=
  ⟨by decide, by decide, by decide, by decide,
   parseJob_t_capacity.1 .jbAVAIL 1 [104, 49] [47, 97] (by decide) (by decide)
     (by decide) (by decide)⟩

/-! ## Properties of the array iterator -/

end Rteval
